import Mathlib

/-!
Verification of the local_agent repository against its specification.

This file contains a shallow embedding, in Lean 4, of the parts of the
repository that the frozen claims talk about:

* `Agent.chat` and its tool-invocation protocol (src/agent/core.py),
* `Agent._load_tools`, the YAML tool-registry loader (src/agent/core.py),
* `OllamaBackend.generate`, the message-list assembly (src/agent/llm_backend.py),
* `FileReaderTool.run` (src/agent/tools/file_reader.py),
* `FileSearchTool.run` (src/agent/tools/file_search.py),
* the HTTP service startup model name (src/server/api.py).

Python library functions used by that code (json.loads / json.dumps,
str.strip, str.startswith, os.path.join / os.path.abspath, os.walk,
os.path.splitext, re for the pattern subset actually exercised, and UTF-8
decoding with errors ignored) are modelled explicitly below; each model's
doc comment states the subset that is covered.  Machine integers do not
occur: all Python integers involved are arbitrary precision, so Lean `Int`
and `Nat` are used directly.
-/

namespace LocalAgent

/-! ## Python string helpers -/

/-- Whitespace characters removed by Python's `str.strip()`. -/
def isPySpace (c : Char) : Bool :=
  c == ' ' || c == '\t' || c == '\n' || c == '\r' || c == '\x0b' || c == '\x0c'

/-- Model of Python `str.strip()`: drop leading and trailing whitespace. -/
def pyStrip (s : String) : String :=
  ⟨((s.data.dropWhile isPySpace).reverse.dropWhile isPySpace).reverse⟩

/-- Model of Python `s.startswith(pre)`: `pre` is a prefix of `s`. -/
def pyStartsWith (s pre : String) : Bool :=
  pre.data.isPrefixOf s.data

/-- Join a list of strings with a separator (Python `sep.join(parts)`). -/
def joinSep (sep : String) : List String → String
  | [] => ""
  | [x] => x
  | x :: y :: rest => x ++ sep ++ joinSep sep (y :: rest)

/-- Split a character list at every occurrence of `sep` (Python `s.split(sep)`). -/
def splitChar (sep : Char) : List Char → List (List Char)
  | [] => [[]]
  | c :: rest =>
    let r := splitChar sep rest
    if c == sep then [] :: r
    else
      match r with
      | h :: t => (c :: h) :: t
      | [] => [[c]]

/-! ## JSON values

Model of the Python `json` module as used by `Agent.chat`.  The value
space covers null, booleans, integers, strings, arrays and objects; JSON
floats and exponent notation are not modelled (no modelled input uses
them, and the agent code never produces them). -/

/-- JSON value as produced by `json.loads` / consumed by `json.dumps`. -/
inductive Json where
  | null
  | bool (b : Bool)
  | num (n : Int)
  | str (s : String)
  | arr (elems : List Json)
  | obj (fields : List (String × Json))
deriving Repr

/-- Look a key up in a JSON object's field list (Python `dict.get(k)`). -/
def jLookup : List (String × Json) → String → Option Json
  | [], _ => none
  | (k, v) :: rest, key => if k == key then some v else jLookup rest key

/-- Insert a key into an object under Python dict semantics: an existing
key keeps its position and gets the new value, a fresh key is appended. -/
def objInsert (fs : List (String × Json)) (k : String) (v : Json) :
    List (String × Json) :=
  if fs.any (fun p => p.1 == k) then
    fs.map (fun p => if p.1 == k then (k, v) else p)
  else fs ++ [(k, v)]

/-- Python truthiness (`if tool_info:`) for JSON values: `None`, `False`,
`0`, `""`, `[]` and `\x7b\x7d` are falsy, everything else is truthy. -/
def jTruthy : Json → Bool
  | .null => false
  | .bool b => b
  | .num n => n != 0
  | .str s => s != ""
  | .arr xs => !xs.isEmpty
  | .obj fs => !fs.isEmpty

/-! ## JSON parser (model of `json.loads`)

A fuel-indexed recursive-descent parser.  It is faithful to strict
`json.loads` on the subset described above: leading/trailing JSON
whitespace, `null` / `true` / `false`, integers, strings with the
standard single-character escapes and `\u` escapes (surrogate pairs not
combined), arrays and objects (duplicate object keys resolved
last-wins, as Python dicts do).  Any other input is rejected, as strict
`json.loads` raises `JSONDecodeError` on malformed documents. -/

/-- JSON whitespace accepted between tokens by `json.loads`. -/
def jsonWs (c : Char) : Bool :=
  c == ' ' || c == '\t' || c == '\n' || c == '\r'

/-- Parse one hexadecimal digit. -/
def parseHexDigit (c : Char) : Option Nat :=
  if '0' ≤ c ∧ c ≤ '9' then some (c.toNat - '0'.toNat)
  else if 'a' ≤ c ∧ c ≤ 'f' then some (c.toNat - 'a'.toNat + 10)
  else if 'A' ≤ c ∧ c ≤ 'F' then some (c.toNat - 'A'.toNat + 10)
  else none

/-- Parse the body of a JSON string after the opening quote; returns the
decoded characters and the remaining input after the closing quote. -/
def parseJsonString : Nat → List Char → Option (List Char × List Char)
  | 0, _ => none
  | _ + 1, [] => none
  | fuel + 1, c :: rest =>
    if c == '"' then some ([], rest)
    else if c == '\\' then
      match rest with
      | [] => none
      | e :: rest2 =>
        let cont := fun (ch : Char) (r : List Char) =>
          (parseJsonString fuel r).map (fun p => (ch :: p.1, p.2))
        if e == '"' then cont '"' rest2
        else if e == '\\' then cont '\\' rest2
        else if e == '/' then cont '/' rest2
        else if e == 'b' then cont '\x08' rest2
        else if e == 'f' then cont '\x0c' rest2
        else if e == 'n' then cont '\n' rest2
        else if e == 'r' then cont '\r' rest2
        else if e == 't' then cont '\t' rest2
        else if e == 'u' then
          match rest2 with
          | h1 :: h2 :: h3 :: h4 :: rest3 =>
            match parseHexDigit h1, parseHexDigit h2, parseHexDigit h3, parseHexDigit h4 with
            | some d1, some d2, some d3, some d4 =>
              cont (Char.ofNat (((d1 * 16 + d2) * 16 + d3) * 16 + d4)) rest3
            | _, _, _, _ => none
          | _ => none
        else none
    else if c.toNat < 0x20 then none
    else (parseJsonString fuel rest).map (fun p => (c :: p.1, p.2))

/-- Fold decimal digits into a natural number. -/
def digitsToNat (ds : List Char) : Nat :=
  ds.foldl (fun acc c => acc * 10 + (c.toNat - '0'.toNat)) 0

/-- Parse the comma-separated items of a JSON array after the first item
is known to exist; the element parser is passed in as a function. -/
def parseArrItems (pElem : List Char → Option (Json × List Char)) :
    Nat → List Char → Option (List Json × List Char)
  | 0, _ => none
  | fuel + 1, cs =>
    match pElem cs with
    | none => none
    | some (v, rest) =>
      match rest.dropWhile jsonWs with
      | ',' :: rest2 =>
        (parseArrItems pElem fuel rest2).map (fun p => (v :: p.1, p.2))
      | ']' :: rest2 => some ([v], rest2)
      | _ => none

/-- Parse the comma-separated members of a JSON object after the first
member is known to exist, returning the key/value pairs in source order
(duplicates included; dict semantics are applied by the caller). -/
def parseObjItems (pElem : List Char → Option (Json × List Char)) :
    Nat → List Char → Option (List (String × Json) × List Char)
  | 0, _ => none
  | fuel + 1, cs =>
    match cs.dropWhile jsonWs with
    | '"' :: csk =>
      match parseJsonString (fuel + 1) csk with
      | none => none
      | some (key, rest) =>
        match rest.dropWhile jsonWs with
        | ':' :: rest2 =>
          match pElem rest2 with
          | none => none
          | some (v, rest3) =>
            match rest3.dropWhile jsonWs with
            | ',' :: rest4 =>
              (parseObjItems pElem fuel rest4).map
                (fun p => ((⟨key⟩, v) :: p.1, p.2))
            | '\x7d' :: rest4 => some ([(⟨key⟩, v)], rest4)
            | _ => none
        | _ => none
    | _ => none

/-- Parse one JSON value (with leading whitespace) and return the rest. -/
def parseJsonV : Nat → List Char → Option (Json × List Char)
  | 0, _ => none
  | fuel + 1, cs =>
    match cs.dropWhile jsonWs with
    | [] => none
    | c :: rest =>
      if c == 'n' then
        match rest with
        | 'u' :: 'l' :: 'l' :: r => some (.null, r)
        | _ => none
      else if c == 't' then
        match rest with
        | 'r' :: 'u' :: 'e' :: r => some (.bool true, r)
        | _ => none
      else if c == 'f' then
        match rest with
        | 'a' :: 'l' :: 's' :: 'e' :: r => some (.bool false, r)
        | _ => none
      else if c == '"' then
        (parseJsonString (fuel + 1) rest).map (fun p => (.str ⟨p.1⟩, p.2))
      else if c == '[' then
        match rest.dropWhile jsonWs with
        | ']' :: r => some (.arr [], r)
        | _ => (parseArrItems (parseJsonV fuel) (fuel + 1) rest).map
            (fun p => (.arr p.1, p.2))
      else if c == '\x7b' then
        match rest.dropWhile jsonWs with
        | '\x7d' :: r => some (.obj [], r)
        | _ => (parseObjItems (parseJsonV fuel) (fuel + 1) rest).map
            (fun p => (.obj (p.1.foldl (fun acc kv => objInsert acc kv.1 kv.2) []), p.2))
      else if c == '-' ∨ c.isDigit then
        let body := if c == '-' then rest else c :: rest
        match body with
        | d :: _ =>
          if d.isDigit then
            let digits := body.takeWhile Char.isDigit
            let restN := body.dropWhile Char.isDigit
            match restN with
            | '.' :: _ => none
            | 'e' :: _ => none
            | 'E' :: _ => none
            | _ =>
              let n : Int := Int.ofNat (digitsToNat digits)
              some (.num (if c == '-' then -n else n), restN)
          else none
        | [] => none
      else none

/-- Model of strict `json.loads`: parse a whole document, requiring that
only JSON whitespace remains afterwards; `none` models `JSONDecodeError`. -/
def jsonLoads (s : String) : Option Json :=
  match parseJsonV (s.data.length + 16) s.data with
  | some (v, rest) => if (rest.dropWhile jsonWs).isEmpty then some v else none
  | none => none

/-! ## JSON serialization (model of `json.dumps(..., ensure_ascii=False)`)

Default separators `", "` and `": "` are used, matching
`json.dumps(result, ensure_ascii=False)` in `Agent.chat`.  Non-ASCII
characters are emitted verbatim (`ensure_ascii=False`); the control
characters get the standard escapes. -/

/-- Escape one character of a JSON string for `json.dumps`. -/
def escapeJsonChar (c : Char) : List Char :=
  if c == '"' then ['\\', '"']
  else if c == '\\' then ['\\', '\\']
  else if c == '\n' then ['\\', 'n']
  else if c == '\t' then ['\\', 't']
  else if c == '\r' then ['\\', 'r']
  else if c == '\x08' then ['\\', 'b']
  else if c == '\x0c' then ['\\', 'f']
  else if c.toNat < 0x20 then
    let hex := fun (n : Nat) => if n < 10 then Char.ofNat ('0'.toNat + n)
      else Char.ofNat ('a'.toNat + n - 10)
    ['\\', 'u', '0', '0', hex (c.toNat / 16), hex (c.toNat % 16)]
  else [c]

/-- Serialize a string with surrounding quotes, as `json.dumps` does. -/
def dumpJsonString (s : String) : String :=
  ⟨'"' :: s.data.foldr (fun c acc => escapeJsonChar c ++ acc) ['"']⟩

mutual

/-- Model of `json.dumps(v, ensure_ascii=False)`. -/
def jsonDumps : Json → String
  | .null => "null"
  | .bool true => "true"
  | .bool false => "false"
  | .num n => toString n
  | .str s => dumpJsonString s
  | .arr xs => "[" ++ joinSep ", " (jsonDumpsList xs) ++ "]"
  | .obj fs => "\x7b" ++ joinSep ", " (jsonDumpsFields fs) ++ "\x7d"

/-- Serialize every element of a JSON array. -/
def jsonDumpsList : List Json → List String
  | [] => []
  | x :: rest => jsonDumps x :: jsonDumpsList rest

/-- Serialize every member of a JSON object. -/
def jsonDumpsFields : List (String × Json) → List String
  | [] => []
  | (k, v) :: rest => (dumpJsonString k ++ ": " ++ jsonDumps v) :: jsonDumpsFields rest

end

/-! ## Agent core (src/agent/core.py)

The conversation history is a list of role/content messages.  A tool in
the registry exposes the four facets of the tool contract; its `run`
models the Python `tool.run(**args)` call: it receives the keyword
arguments (the fields of the JSON `args` object) and either returns a
JSON-serializable result or fails with an exception message. -/

/-- One entry of the conversation history (a Python dict with `role` and
`content`). -/
structure Message where
  role : String
  content : String
deriving DecidableEq, Repr

/-- A registered tool: name, description, the printed form of its input
schema (only ever interpolated into the system prompt), and its
execution.  `run` returns `Except.error msg` when the Python call
`tool.run(**args)` would raise an exception with message `msg`. -/
structure ChatTool where
  name : String
  description : String
  inputSchema : String
  run : List (String × Json) → Except String Json

/-- The mutable state of one `Agent` instance: its tool registry (built
once at construction) and its conversation history. -/
structure AgentState where
  tools : List (String × ChatTool)
  history : List Message

/-- A language-model backend: from prompt, history and optional system
prompt to a reply, or a raised exception (`ServiceError` / `MissingData`
propagate out of `Agent.chat` uncaught). -/
def Backend : Type :=
  String → List Message → Option String → Except String String

/-- Look a tool name up in the registry (Python `self.tools.get(name)`). -/
def lookupTool : List (String × ChatTool) → String → Option ChatTool
  | [], _ => none
  | (k, v) :: rest, key => if k == key then some v else lookupTool rest key

/-- Transcription of `Agent._build_system_prompt`. -/
def buildSystemPrompt (tools : List (String × ChatTool)) : String :=
  let lines :=
    ["You are a local AI agent. The user may ask you to perform tasks.",
     "You have access to the following tools:"] ++
    tools.map (fun p =>
      "- " ++ p.2.name ++ ": " ++ p.2.description ++ ". Input schema: " ++ p.2.inputSchema) ++
    ["When you decide to use a tool, respond with a JSON object in the following format:",
     "\x7b\"tool\": \x7b\"name\": \"<tool_name>\", \"args\": \x7b\"param1\": \"value\", ...\x7d\x7d\x7d",
     "Do not wrap the JSON in code fences or include any additional text."]
  joinSep "\n" lines

/-- Transcription of the `try` block of `Agent.chat` (core.py lines
104-124).  Every exception raised inside the block — `JSONDecodeError`
from `json.loads`, `AttributeError` from `.get` on a non-dict,
`ValueError` for an unknown tool, `TypeError` from splatting non-mapping
args, and any failure raised by the tool itself — is caught by the
`except` clause and makes the turn fall through to the plain-chat path;
all those cases are therefore `none` here.  `some result_str` is the
single path on which the block returns: a truthy `tool` envelope whose
name resolves in the registry and whose execution succeeds; the returned
string is the serialized tool result. -/
def tryToolCall (tools : List (String × ChatTool)) (reply : String) : Option String :=
  match jsonLoads reply with
  | none => none
  | some data =>
    match data with
    | .obj fields =>
      match jLookup fields "tool" with
      | none => none
      | some toolInfo =>
        if jTruthy toolInfo then
          match toolInfo with
          | .obj tf =>
            match jLookup tf "name" with
            | some (.str toolName) =>
              match lookupTool tools toolName with
              | none => none
              | some tool =>
                match (jLookup tf "args").getD (.obj []) with
                | .obj argFields =>
                  match tool.run argFields with
                  | .ok result => some (jsonDumps result)
                  | .error _ => none
                | _ => none
            | _ => none
          | _ => none
        else none
    | _ => none

/-- Transcription of `Agent.chat` (core.py lines 87-128).  The backend
call may raise (`ServiceError` / `MissingData`), which propagates; the
reply is stripped; when tool use is on and the stripped reply starts
with a brace, the tool branch is attempted, appending three history
entries and returning the serialized result on success and falling
through to the plain path otherwise; the plain path appends the user
message and the stripped reply and returns the stripped reply. -/
def Agent.chat (backend : Backend) (st : AgentState) (message : String)
    (useTools : Bool) : Except String (String × AgentState) :=
  match backend message st.history
      (if useTools then some (buildSystemPrompt st.tools) else none) with
  | .error e => .error e
  | .ok response =>
    if useTools && pyStartsWith (pyStrip response) "\x7b" then
      match tryToolCall st.tools (pyStrip response) with
      | some resultStr =>
        .ok (resultStr,
          { st with history := st.history ++
              [⟨"user", message⟩, ⟨"assistant", pyStrip response⟩,
               ⟨"assistant", resultStr⟩] })
      | none =>
        .ok (pyStrip response,
          { st with history := st.history ++
              [⟨"user", message⟩, ⟨"assistant", pyStrip response⟩] })
    else
      .ok (pyStrip response,
        { st with history := st.history ++
            [⟨"user", message⟩, ⟨"assistant", pyStrip response⟩] })

/-! ## Ollama backend (src/agent/llm_backend.py)

`OllamaBackend.generate` assembles a fresh message list — optional
system message, then the entire history, then the new user message — and
posts it via `self._chat`.  The HTTP call is abstracted as a function
from the assembled message list to a reply or a raised exception. -/

/-- The message list assembled by `OllamaBackend.generate`: the local
variable `messages` after the three build-up statements. -/
def ollamaMessages (prompt : String) (history : List Message)
    (systemPrompt : Option String) : List Message :=
  let messages : List Message := []
  let messages := match systemPrompt with
    | some sp => messages ++ [⟨"system", sp⟩]
    | none => messages
  let messages := messages ++ history
  let messages := messages ++ [⟨"user", prompt⟩]
  messages

/-- Transcription of `OllamaBackend.generate`: build the message list,
invoke the chat transport on it, and return its outcome together with
the caller's history as it stands after the call (the code never applies
a mutating operation to `history`; all appends target the fresh local
`messages` list). -/
def OllamaBackend.generate (chatFn : List Message → Except String String)
    (prompt : String) (history : List Message) (systemPrompt : Option String) :
    Except String String × List Message :=
  (chatFn (ollamaMessages prompt history systemPrompt), history)

/-! ## POSIX path model (os.path.join / os.path.abspath)

The repository roots handled by the tools are absolute POSIX paths
(`FileReaderTool.__init__` stores `os.path.abspath(...)`), so the
`os.path.abspath` applied to the joined path reduces to `os.path.normpath`.
The model below covers absolute inputs; the POSIX corner case of a path
beginning with exactly two slashes keeping both is not modelled (no
modelled root or input uses it). -/

/-- Resolve `.` and `..` components the way `os.path.normpath` does on an
absolute path: `..` pops the previous component and cannot climb above
the root. -/
def normComponents (comps : List String) : List String :=
  comps.foldl
    (fun acc c =>
      if c = ".." then acc.dropLast
      else acc ++ [c])
    []

/-- Model of `os.path.normpath` (and hence of `os.path.abspath`) on an
absolute POSIX path: split on slashes, drop empty and `.` components,
resolve `..`, and rebuild with a single leading slash. -/
def normAbs (s : String) : String :=
  let comps := (splitChar '/' s.data).map (fun l => (⟨l⟩ : String))
  let comps := comps.filter (fun c => c ≠ "" ∧ c ≠ ".")
  "/" ++ joinSep "/" (normComponents comps)

/-- Model of `os.path.join(root, path)` on POSIX: an absolute `path`
replaces `root`, otherwise the two are joined with a slash. -/
def pyJoin (root path : String) : String :=
  if pyStartsWith path "/" then path else root ++ "/" ++ path

/-! ## UTF-8 decoding with errors ignored

Model of reading a file opened with `encoding="utf-8", errors="ignore"`:
well-formed sequences decode to their scalar value, and bytes that do not
begin a valid sequence are silently dropped.  Recovery after an invalid
continuation byte is modelled as dropping the leading byte and rescanning,
which agrees with CPython on the inputs used in this development (all of
which are well-formed). -/

/-- Is `b` a UTF-8 continuation byte? -/
def isCont (b : Nat) : Bool := 0x80 ≤ b && b ≤ 0xBF

/-- Is `b` the leading byte of a two-byte sequence? -/
def isLead2 (b : Nat) : Bool := 0xC2 ≤ b && b ≤ 0xDF

/-- Is `b` the leading byte of a three-byte sequence? -/
def isLead3 (b : Nat) : Bool := 0xE0 ≤ b && b ≤ 0xEF

/-- Is `b` the leading byte of a four-byte sequence? -/
def isLead4 (b : Nat) : Bool := 0xF0 ≤ b && b ≤ 0xF4

/-- Scalar value of a decoded three-byte sequence. -/
def scalar3 (b b2 b3 : Nat) : Nat :=
  (b - 0xE0) * 0x1000 + (b2 - 0x80) * 0x40 + (b3 - 0x80)

/-- Scalar value of a decoded four-byte sequence. -/
def scalar4 (b b2 b3 b4 : Nat) : Nat :=
  (b - 0xF0) * 0x40000 + (b2 - 0x80) * 0x1000 + (b3 - 0x80) * 0x40 + (b4 - 0x80)

/-- Is the three-byte scalar in range (no overlong forms, no surrogates)? -/
def valid3 (v : Nat) : Bool := 0x800 ≤ v && !(0xD800 ≤ v && v ≤ 0xDFFF)

/-- Is the four-byte scalar in the supplementary-plane range? -/
def valid4 (v : Nat) : Bool := 0x10000 ≤ v && v ≤ 0x10FFFF

/-- Fuel-indexed body of the decoder; every step consumes at least one
byte, so fuel exceeding the byte count never runs out. -/
def utf8DecodeIgnoreF : Nat → List Nat → List Char
  | 0, _ => []
  | _ + 1, [] => []
  | fuel + 1, b :: rest =>
    if b < 0x80 then Char.ofNat b :: utf8DecodeIgnoreF fuel rest
    else if isLead2 b then
      match rest with
      | b2 :: rest2 =>
        if isCont b2 then
          Char.ofNat ((b - 0xC0) * 0x40 + (b2 - 0x80)) :: utf8DecodeIgnoreF fuel rest2
        else utf8DecodeIgnoreF fuel rest
      | [] => []
    else if isLead3 b then
      match rest with
      | b2 :: b3 :: rest3 =>
        if isCont b2 && isCont b3 && valid3 (scalar3 b b2 b3) then
          Char.ofNat (scalar3 b b2 b3) :: utf8DecodeIgnoreF fuel rest3
        else utf8DecodeIgnoreF fuel rest
      | _ => utf8DecodeIgnoreF fuel rest
    else if isLead4 b then
      match rest with
      | b2 :: b3 :: b4 :: rest4 =>
        if isCont b2 && isCont b3 && isCont b4 && valid4 (scalar4 b b2 b3 b4) then
          Char.ofNat (scalar4 b b2 b3 b4) :: utf8DecodeIgnoreF fuel rest4
        else utf8DecodeIgnoreF fuel rest
      | _ => utf8DecodeIgnoreF fuel rest
    else utf8DecodeIgnoreF fuel rest

/-- Decode a UTF-8 byte sequence, silently dropping undecodable bytes. -/
def utf8DecodeIgnore (bs : List Nat) : List Char :=
  utf8DecodeIgnoreF (bs.length + 1) bs

/-! ## File reader tool (src/agent/tools/file_reader.py) -/

/-- The file system visible to the file reader: a finite map from
normalized absolute paths of existing regular files to their raw bytes.
Paths not in the map model `os.path.exists(...) == False` (or a
non-regular file, which `run` treats identically). -/
def ReaderFS : Type := List (String × List Nat)

/-- Look up a file's bytes by absolute path. -/
def fsLookup : ReaderFS → String → Option (List Nat)
  | [], _ => none
  | (p, bs) :: rest, key => if p == key then some bs else fsLookup rest key

/-- Result dict of a successful `FileReaderTool.run`. -/
structure ReadResult where
  content : List Char
  truncated : Bool
deriving DecidableEq, Repr

/-- Model of Python text-mode `f.read(n)`: a negative `n` reads the whole
stream, otherwise at most `n` characters are read. -/
def pyRead (decoded : List Char) (n : Int) : List Char :=
  if n < 0 then decoded else decoded.take n.toNat

/-- Transcription of `FileReaderTool.run` (file_reader.py lines 41-54).
The `path` keyword is modelled as a string, with `""` standing for every
falsy value of `if not path`.  `abs_path` is the normalized join against
the repository root; the containment guard is the literal
`abs_path.startswith(self.repo_root)` string-prefix test; a missing file
raises `FileNotFoundError`; otherwise at most `max_chars` characters of
the UTF-8 decoded (errors ignored) content are returned together with
the flag `len(content) >= max_chars`. -/
def FileReaderTool.run (repoRoot : String) (fs : ReaderFS) (path : String)
    (maxChars : Int) : Except String ReadResult :=
  if path = "" then .error "'path' argument is required"
  else if !pyStartsWith (normAbs (pyJoin repoRoot path)) repoRoot then
    .error "Access outside the repository is not allowed"
  else
    match fsLookup fs (normAbs (pyJoin repoRoot path)) with
    | none => .error ("File not found: " ++ path)
    | some bytes =>
      .ok ⟨pyRead (utf8DecodeIgnore bytes) maxChars,
        decide (((pyRead (utf8DecodeIgnore bytes) maxChars).length : Int) ≥ maxChars)⟩

/-- The containment property the specification claims for accepted paths
(stated from the claim's words, for comparison with the code's
string-prefix test): the resolved path is the root itself or lies
strictly below it. -/
def insideRoot (root p : String) : Prop :=
  p = root ∨ pyStartsWith p (root ++ "/") = true

/-! ## Regular expression engine (model of `re` as used by file search)

`FileSearchTool.run` compiles the query with
`re.compile(query, re.IGNORECASE)` and tests each line with
`pattern.search(line)`.  The model below covers the fragment of Python
regex syntax needed by the claims: literal characters, `.`, and the
postfix repeaters `*`, `+`, `?` applied to a single atom.  Patterns
using the remaining metacharacters (`^ $ [ ] ( ) \x7b \x7d \ |`) are
outside the modelled fragment and compile to `none`; every theorem below
either quantifies over metacharacter-free queries, where the model is
total and faithful, or evaluates a concrete pattern inside the
fragment.  Matching is case-insensitive (both sides lowered), as the
code always passes `re.IGNORECASE`. -/

/-- A single-character regex atom: a literal or the `.` wildcard. -/
inductive RBase where
  | chr (c : Char)
  | dot
deriving DecidableEq, Repr

/-- A repetition modifier attached to an atom. -/
inductive RMod where
  | one
  | star
  | plus
  | opt
deriving DecidableEq, Repr

/-- The characters Python's `re` treats as special. -/
def isReMeta (c : Char) : Bool :=
  c == '.' || c == '^' || c == '$' || c == '*' || c == '+' || c == '?' ||
  c == '\x7b' || c == '\x7d' || c == '[' || c == ']' || c == '\\' ||
  c == '|' || c == '(' || c == ')'

/-- Does atom `b` match character `c` under `re.IGNORECASE`? The dot
does not match a newline (no `re.DOTALL`). -/
def matchBase (b : RBase) (c : Char) : Bool :=
  match b with
  | .chr pc => pc.toLower == c.toLower
  | .dot => c != '\n'

/-- Fuel-indexed matcher body: every recursive call either drops an atom
or consumes an input character, so fuel exceeding the sum of the two
lengths never runs out. -/
def matchSeqF : Nat → List (RBase × RMod) → List Char → Bool
  | 0, _, _ => false
  | _ + 1, [], _ => true
  | fuel + 1, (b, .one) :: ps, s =>
    match s with
    | [] => false
    | c :: cs => matchBase b c && matchSeqF fuel ps cs
  | fuel + 1, (b, .opt) :: ps, s =>
    matchSeqF fuel ps s ||
      (match s with
       | [] => false
       | c :: cs => matchBase b c && matchSeqF fuel ps cs)
  | fuel + 1, (b, .star) :: ps, s =>
    matchSeqF fuel ps s ||
      (match s with
       | [] => false
       | c :: cs => matchBase b c && matchSeqF fuel ((b, .star) :: ps) cs)
  | fuel + 1, (b, .plus) :: ps, s =>
    match s with
    | [] => false
    | c :: cs => matchBase b c && matchSeqF fuel ((b, .star) :: ps) cs

/-- Does the atom sequence match some prefix of `s`?  (`re` patterns are
not anchored on the right, so a trailing remainder is always allowed.) -/
def matchSeq (ps : List (RBase × RMod)) (s : List Char) : Bool :=
  matchSeqF (ps.length + s.length + 1) ps s

/-- Model of `pattern.search(line)`: does the pattern match starting at
some position of `s`? -/
def reSearch (p : List (RBase × RMod)) : List Char → Bool
  | [] => matchSeq p []
  | c :: rest => matchSeq p (c :: rest) || reSearch p rest

/-- Compile loop for `reCompile`, carrying the atoms built so far in
reverse order. -/
def reCompileGo : List Char → List (RBase × RMod) → Option (List (RBase × RMod))
  | [], acc => some acc.reverse
  | c :: rest, acc =>
    if c == '.' then reCompileGo rest ((.dot, .one) :: acc)
    else if c == '*' || c == '+' || c == '?' then
      match acc with
      | (b, .one) :: acc2 =>
        let m : RMod := if c == '*' then .star else if c == '+' then .plus else .opt
        reCompileGo rest ((b, m) :: acc2)
      | _ => none
    else if isReMeta c then none
    else reCompileGo rest ((.chr c, .one) :: acc)

/-- Model of `re.compile(query, re.IGNORECASE)` on the covered fragment;
`none` stands both for patterns that raise `re.error` (such as a leading
repeater) and for syntax outside the modelled fragment. -/
def reCompile (q : String) : Option (List (RBase × RMod)) :=
  reCompileGo q.data []

/-- The atom sequence a metacharacter-free query compiles to. -/
def litAtoms (q : List Char) : List (RBase × RMod) :=
  q.map (fun c => (RBase.chr c, RMod.one))

/-- Does `q` occur as a contiguous run inside `s`?  (Plain substring
containment, used to state the spec's literal-matching claim.) -/
def containsSub (q : List Char) : List Char → Bool
  | [] => q.isEmpty
  | c :: rest => q.isPrefixOf (c :: rest) || containsSub q rest

/-- Case-insensitive literal containment, the matching the specification
prescribes for a non-regex query: the lowered query occurs inside the
lowered line. -/
def containsCI (q s : List Char) : Bool :=
  containsSub (q.map Char.toLower) (s.map Char.toLower)

/-! ## File search tool (src/agent/tools/file_search.py)

The directory tree under the repository root is modelled as a finite
tree whose nodes carry the subdirectories (in `os.walk` scandir order)
and the files of that directory.  A file's content is the list of lines
exactly as Python line iteration yields them (each line keeping its
trailing newline except possibly the last); every file in the model is
readable, so the `except: continue` branch of `run` never fires — no
claim mentions unreadable files. -/

mutual

/-- A directory: its subdirectories and its regular files (name and
lines). -/
inductive FTree where
  | node (dirs : FDirList) (files : List (String × List String)) : FTree

/-- The subdirectory list of a directory, in traversal order. -/
inductive FDirList where
  | nil : FDirList
  | cons (name : String) (child : FTree) (rest : FDirList) : FDirList

end

/-- One match record `\x7bfile, line, text\x7d` produced by the search. -/
structure SMatch where
  file : String
  line : Nat
  text : String
deriving DecidableEq, Repr

/-- The extension allow-list `FileSearchTool.TEXT_EXTENSIONS`. -/
def TEXT_EXTENSIONS : List String :=
  [".py", ".md", ".txt", ".yaml", ".yml", ".json", ".sh", ".ps1",
   ".ini", ".cfg", ".toml", ".js", ".ts", ".html", ".css"]

/-- Split a file name at its last dot, provided some earlier character
is not a dot (CPython `os.path.splitext` skips leading dots); returns
the part before the dot and the extension including the dot. -/
def lastDotSplit : List Char → Option (List Char × List Char)
  | [] => none
  | c :: rest =>
    match lastDotSplit rest with
    | some (b, e) => some (c :: b, e)
    | none => if c == '.' then some ([], c :: rest) else none

/-- Model of the extension part of `os.path.splitext(fname)`. -/
def extOf (fname : String) : String :=
  match lastDotSplit fname.data with
  | none => ""
  | some (b, e) => if b.all (fun c => c == '.') then "" else ⟨e⟩

/-- The file-extension filter of `run`: `ext.lower() in TEXT_EXTENSIONS`. -/
def allowedExt (fname : String) : Bool :=
  TEXT_EXTENSIONS.contains ⟨(extOf fname).data.map Char.toLower⟩

/-- Root-relative path of an entry `name` inside the directory whose
root-relative path is `pre` (the result of `os.path.relpath` after
joining). -/
def relOf (pre name : String) : String :=
  if pre = "" then name else pre ++ "/" ++ name

/-- Scan the lines of one file (1-based numbering), appending a match
record for every line the predicate accepts; as soon as the match list
reaches `maxResults` the whole search aborts with `truncated = True`
(the `return` inside the loop in `run`). -/
def scanLines (pred : String → Bool) (maxResults : Int) (rel : String) :
    List String → Nat → List SMatch → List SMatch × Bool
  | [], _, acc => (acc, false)
  | line :: rest, lineno, acc =>
    if pred line then
      let acc2 := acc ++ [⟨rel, lineno, pyStrip line⟩]
      if (acc2.length : Int) ≥ maxResults then (acc2, true)
      else scanLines pred maxResults rel rest (lineno + 1) acc2
    else scanLines pred maxResults rel rest (lineno + 1) acc

/-- Scan the files of one directory in order, skipping files whose
extension is not allow-listed. -/
def scanFiles (pred : String → Bool) (maxResults : Int) (pre : String) :
    List (String × List String) → List SMatch → List SMatch × Bool
  | [], acc => (acc, false)
  | (fname, lines) :: rest, acc =>
    if allowedExt fname then
      match scanLines pred maxResults (relOf pre fname) lines 1 acc with
      | (acc2, true) => (acc2, true)
      | (acc2, false) => scanFiles pred maxResults pre rest acc2
    else scanFiles pred maxResults pre rest acc

mutual

/-- The `os.walk` loop of `run` over a directory: the directory's own
files first, then each subdirectory recursively, propagating the early
return once the cap is reached.  No directory name is ever skipped —
the code iterates `os.walk(self.repo_root)` without pruning `dirs`. -/
def walkTree (pred : String → Bool) (maxResults : Int) :
    FTree → String → List SMatch → List SMatch × Bool
  | .node dirs files, pre, acc =>
    match scanFiles pred maxResults pre files acc with
    | (acc2, true) => (acc2, true)
    | (acc2, false) => walkDirs pred maxResults dirs pre acc2

/-- Walk every subdirectory in order. -/
def walkDirs (pred : String → Bool) (maxResults : Int) :
    FDirList → String → List SMatch → List SMatch × Bool
  | .nil, _, acc => (acc, false)
  | .cons d child rest, pre, acc =>
    match walkTree pred maxResults child (relOf pre d) acc with
    | (acc2, true) => (acc2, true)
    | (acc2, false) => walkDirs pred maxResults rest pre acc2

end

/-- Transcription of `FileSearchTool.run` (file_search.py lines 48-77):
an empty or missing query raises `ValueError`; the query is compiled
with `re.IGNORECASE` and no escaping; the tree is walked without pruning
and matching lines are accumulated until `max_results` aborts the walk
with `truncated = True`, else all matches are returned with
`truncated = False`. -/
def FileSearchTool.run (tree : FTree) (query : String) (maxResults : Int) :
    Except String (List SMatch × Bool) :=
  if query = "" then .error "'query' argument is required"
  else
    match reCompile query with
    | none => .error "re.error"
    | some p => .ok (walkTree (fun line => reSearch p line.data) maxResults tree "" [])

/-- The literal-substring variant of the search that the specification
describes for a non-regex query (stated from the spec's words, for
comparison with the code): identical walk, but a line matches when it
contains the query case-insensitively as literal text. -/
def literalSearchRun (tree : FTree) (query : String) (maxResults : Int) :
    Except String (List SMatch × Bool) :=
  if query = "" then .error "'query' argument is required"
  else .ok (walkTree (fun line => containsCI query.data line.data) maxResults tree "" [])

mutual

/-- Every file of the tree in walk order, with its name, root-relative
path and lines — including the files of every ignored-by-the-spec
directory, since the walk prunes nothing. -/
def allFiles : FTree → String → List (String × String × List String)
  | .node dirs files, pre =>
    files.map (fun p => (p.1, relOf pre p.1, p.2)) ++ allFilesDirs dirs pre

/-- Files of all subdirectories in walk order. -/
def allFilesDirs : FDirList → String → List (String × String × List String)
  | .nil, _ => []
  | .cons d child rest, pre =>
    allFiles child (relOf pre d) ++ allFilesDirs rest pre

end

/-- Scan a flat list of files (name, relative path, lines) with the same
per-file logic and early stop as the walk. -/
def linearScan (pred : String → Bool) (maxResults : Int) :
    List (String × String × List String) → List SMatch → List SMatch × Bool
  | [], acc => (acc, false)
  | (fname, rel, lines) :: rest, acc =>
    if allowedExt fname then
      match scanLines pred maxResults rel lines 1 acc with
      | (acc2, true) => (acc2, true)
      | (acc2, false) => linearScan pred maxResults rest acc2
    else linearScan pred maxResults rest acc

/-! ## Tool registry loader (src/agent/core.py, `Agent._load_tools`)

The parsed YAML document is modelled as a tree of YAML scalars,
sequences and mappings; `none` at the call site models a document that
failed to parse (fatal, but outside `_load_tools`).  Dynamic module and
class resolution (`importlib.import_module` plus `getattr`) is a
parameter: it maps a module locator and class name to a tool, `none`
modelling `ImportError` / `AttributeError`, both of which abort
construction. -/

/-- A parsed YAML document, as returned by `yaml.safe_load`. -/
inductive Yaml where
  | null
  | bool (b : Bool)
  | num (n : Int)
  | str (s : String)
  | seq (xs : List Yaml)
  | map (kvs : List (Yaml × Yaml))
deriving Repr

/-- Is the document a mapping? -/
def Yaml.isMap : Yaml → Bool
  | .map _ => true
  | _ => false

/-- Python truthiness of a YAML value (used by `entry.get("class") or ...`). -/
def yTruthy : Yaml → Bool
  | .null => false
  | .bool b => b
  | .num n => n != 0
  | .str s => s != ""
  | .seq xs => !xs.isEmpty
  | .map kvs => !kvs.isEmpty

/-- Look up a string key in a YAML mapping (`config.get(key)`). -/
def yLookup : List (Yaml × Yaml) → String → Option Yaml
  | [], _ => none
  | (k, v) :: rest, key =>
    match k with
    | .str s => if s == key then some v else yLookup rest key
    | _ => yLookup rest key

/-- Model of Python `str.capitalize()`: first character uppercased, the
rest lowercased. -/
def pyCapitalize (s : String) : String :=
  match s.data with
  | [] => ""
  | c :: rest => ⟨c.toUpper :: rest.map Char.toLower⟩

/-- Insert under Python dict-assignment semantics (`tools[name] = cls()`):
an existing key keeps its position and is overwritten. -/
def regInsert (reg : List (String × ChatTool)) (k : String) (t : ChatTool) :
    List (String × ChatTool) :=
  if reg.any (fun p => p.1 == k) then
    reg.map (fun p => if p.1 == k then (k, t) else p)
  else reg ++ [(k, t)]

/-- Load one `tools` entry: read `name` and `module` (a missing key
raises `KeyError`, aborting construction), derive the class name from an
absent or falsy `class` field, and resolve the implementation.  Entries
whose `name` or `module` are not strings are modelled as construction
failures (Python raises on the subsequent `import_module` / `getattr` /
`capitalize` uses for the configurations this repository ships). -/
def loadEntry (resolve : String → String → Option ChatTool) (entry : Yaml) :
    Except String (String × ChatTool) :=
  match entry with
  | .map kvs =>
    match yLookup kvs "name" with
    | some (.str name) =>
      match yLookup kvs "module" with
      | some (.str moduleName) =>
        let classNameE : Except String String :=
          match yLookup kvs "class" with
          | some (.str c) => if c = "" then .ok (pyCapitalize name ++ "Tool") else .ok c
          | some v =>
            if yTruthy v then .error "TypeError: attribute name must be string"
            else .ok (pyCapitalize name ++ "Tool")
          | none => .ok (pyCapitalize name ++ "Tool")
        match classNameE with
        | .error e => .error e
        | .ok className =>
          match resolve moduleName className with
          | some tool => .ok (name, tool)
          | none => .error ("cannot resolve " ++ moduleName ++ ":" ++ className)
      | _ => .error "KeyError: module"
    | _ => .error "KeyError: name"
  | _ => .error "TypeError: entry is not a mapping"

/-- The `for entry in config.get("tools", [])` loop, inserting each
loaded tool into the registry keyed by its declared name. -/
def loadToolsList (resolve : String → String → Option ChatTool) :
    List Yaml → List (String × ChatTool) → Except String (List (String × ChatTool))
  | [], acc => .ok acc
  | e :: rest, acc =>
    match loadEntry resolve e with
    | .error msg => .error msg
    | .ok (n, t) => loadToolsList resolve rest (regInsert acc n t)

/-- Transcription of `Agent._load_tools` after the YAML parse (core.py
lines 56-66).  `config.get("tools", [])` requires the document to be a
mapping: on any parsed non-mapping document (list, scalar, empty
document = `None`) the attribute access raises `AttributeError` and
construction aborts.  A mapping without a `tools` key yields the empty
registry; a `tools` value that is not a sequence raises when iterated or
subscripted. -/
def loadTools (resolve : String → String → Option ChatTool) :
    Yaml → Except String (List (String × ChatTool))
  | .map kvs =>
    (match yLookup kvs "tools" with
     | none => loadToolsList resolve [] []
     | some (.seq entries) => loadToolsList resolve entries []
     | some _ => .error "TypeError: tools value is not iterable as entries")
  | _ => .error "AttributeError: document has no attribute get"

/-! ## HTTP API service startup (src/server/api.py)

The service builds its process-wide backend at import time.  The model
name the code wires in is the literal on line 37; despite the adjacent
comment promising an environment override, no environment variable is
ever read.  The model below makes the (non-)dependence on the process
environment explicit by taking the environment as an argument. -/

/-- The model name `server/api.py` wires into the process-wide backend,
as a function of the process environment: the code assigns the literal
default and never consults `MODEL_NAME`. -/
def apiModelName (_env : List (String × String)) : String :=
  "qwen2.5-coder:14b"

/-- The behaviour the specification prescribes for startup (stated from
the spec's words, for comparison): the `MODEL_NAME` environment variable
when set, the fixed default otherwise. -/
def specModelName (env : List (String × String)) : String :=
  match env.lookup "MODEL_NAME" with
  | some v => v
  | none => "qwen2.5-coder:14b"

/-! ## Concrete fixtures

Closed values used by the witness and counterexample theorems below:
small backends, tool registries, file systems and directory trees. -/

/-- A resolver that can resolve no module/class pair. -/
def resolveNone : String → String → Option ChatTool := fun _ _ => none

/-- A file system holding one two-byte file at `/repoX/f` — a sibling of
the root `/repo` whose absolute path nevertheless has `/repo` as a
string prefix. -/
def fsSibling : ReaderFS := [("/repoX/f", [112, 119])]

/-- A file system holding the two-byte file `ab` under root `/r`. -/
def fsAB : ReaderFS := [("/r/a.txt", [97, 98])]

/-- A tool-invocation envelope naming the unregistered tool `write`. -/
def envUnknown : String :=
  "\x7b\"tool\": \x7b\"name\": \"write\", \"args\": \x7b\x7d\x7d\x7d"

/-- A backend that always replies with the `write` envelope. -/
def backendUnknown : Backend := fun _ _ _ => .ok envUnknown

/-- A registered dummy tool whose execution succeeds with
`\x7b"ran": true\x7d`. -/
def dummyTool : ChatTool :=
  ⟨"t", "dummy", "\x7b\x7d", fun _ => .ok (.obj [("ran", .bool true)])⟩

/-- A registry holding only the dummy tool under the name `t`. -/
def dummyRegistry : List (String × ChatTool) := [("t", dummyTool)]

/-- A well-formed envelope naming the registered dummy tool. -/
def envDummy : String :=
  "\x7b\"tool\": \x7b\"name\": \"t\", \"args\": \x7b\x7d\x7d\x7d"

/-- A backend that always replies with the dummy-tool envelope. -/
def backendDummy : Backend := fun _ _ _ => .ok envDummy

/-- A reply wrapping the dummy-tool envelope in prose: its substring
from the first opening brace to the last closing brace is exactly
`envDummy`, yet the reply does not start with a brace. -/
def proseReply : String := "Sure! " ++ envDummy

/-- A backend that always replies with the prose-wrapped envelope. -/
def backendProse : Backend := fun _ _ _ => .ok proseReply

/-- A backend that always replies with the plain text `hello`. -/
def backendHello : Backend := fun _ _ _ => .ok "hello"

/-- A single file `a.txt` containing the line `abc` at the root. -/
def treeABC : FTree := .node .nil [("a.txt", ["abc"])]

/-- A root containing only the directory `node_modules` with a matching
JavaScript file inside. -/
def treeNodeModules : FTree :=
  .node (.cons "node_modules" (.node .nil [("a.js", ["foo"])]) .nil) []

/-! # Theorems -/

/-! ## Supporting lemmas -/

/-- A file-not-found message never coincides with the containment-guard
message, whatever the offending path. -/
theorem fileNotFound_ne_accessMsg (path : String) :
    ("File not found: " ++ path) ≠ "Access outside the repository is not allowed" := by
  intro h
  have h2 := congrArg String.data h
  rw [String.data_append] at h2
  have h3 : ("File not found: " : String).data = 'F' :: "ile not found: ".data := rfl
  have h4 : ("Access outside the repository is not allowed" : String).data
      = 'A' :: "ccess outside the repository is not allowed".data := rfl
  rw [h3, h4, List.cons_append] at h2
  injection h2 with h5 _
  exact absurd h5 (by decide)

/-! ## C4 — file reader path containment -/

/-- Claim C4, counterexample: the path `../repoX/f` under root `/repo`
normalizes to `/repoX/f`, which lies outside the root, yet the reader
accepts it (the string-prefix test passes) and reads the file instead of
failing with `InvalidInput` — so neither direction of the claim holds as
stated. -/
theorem fileReader_prefix_escape_counterexample :
    FileReaderTool.run "/repo" fsSibling "../repoX/f" 2000 = .ok ⟨['p', 'w'], false⟩ ∧
    ¬ insideRoot "/repo" (normAbs (pyJoin "/repo" "../repoX/f")) := by
  refine ⟨rfl, ?_⟩
  unfold insideRoot
  decide

/-- Claim C4 (amended): for a non-empty `path`, the reader fails with the
message `Access outside the repository is not allowed` exactly when the
textual prefix test `abs_path.startswith(repo_root)` fails on the
normalized joined path.  The test is a string-prefix comparison, not
containment: accepted paths may resolve outside the root (the
counterexample exhibits a sibling directory). -/
theorem fileReader_guard_iff_prefix (root : String) (fs : ReaderFS)
    (path : String) (mc : Int) (hp : path ≠ "") :
    FileReaderTool.run root fs path mc
        = .error "Access outside the repository is not allowed"
      ↔ pyStartsWith (normAbs (pyJoin root path)) root = false := by
  unfold FileReaderTool.run
  rw [if_neg hp]
  cases hchk : pyStartsWith (normAbs (pyJoin root path)) root with
  | false => simp [hchk]
  | true =>
    simp only [hchk, Bool.not_true, Bool.false_eq_true, if_false,
      iff_false, ne_eq]
    cases hl : fsLookup fs (normAbs (pyJoin root path)) with
    | none =>
      simp only [hl]
      exact iff_of_false
        (fun h => fileNotFound_ne_accessMsg path (Except.error.inj h)) (by decide)
    | some bytes =>
      simp only [hl]
      exact iff_of_false (fun h => Except.noConfusion h) (by decide)

/-- Witness for the amended C4 at a concrete input: `../outside` under
root `/repo` fails the prefix test and the reader rejects it with the
containment message. -/
theorem fileReader_guard_iff_prefix_witness :
    FileReaderTool.run "/repo" [] "../outside" 2000
        = .error "Access outside the repository is not allowed"
      ↔ pyStartsWith (normAbs (pyJoin "/repo" "../outside")) "/repo" = false :=
  fileReader_guard_iff_prefix "/repo" [] "../outside" 2000 (by decide)

/-! ## C7 — file reader content and truncation -/

/-- Claim C7, counterexample: `max_chars` is quantified over every
integer, but a negative `max_chars` makes Python's `f.read` return the
whole file, so the content is not `at most max_chars characters`: with
`max_chars = -1` the two-character file is returned in full. -/
theorem fileReader_negative_maxchars_counterexample :
    FileReaderTool.run "/r" fsAB "a.txt" (-1) = .ok ⟨['a', 'b'], true⟩ ∧
    ¬ (((['a', 'b'] : List Char).length : Int) ≤ -1) := by
  exact ⟨rfl, by decide⟩

/-- Claim C7 (amended): for every existing regular file inside the root
and every nonnegative integer `max_chars`, the reader returns the first
at-most-`max_chars` characters of the UTF-8 (errors-ignored) decoded
content, and `truncated` is true iff the number of characters read is at
least `max_chars` — in particular a file of exactly `max_chars`
characters reports `truncated = true`. -/
theorem fileReader_content_truncation (root : String) (fs : ReaderFS)
    (path : String) (mc : Int) (bytes : List Nat) (hp : path ≠ "")
    (hmc : 0 ≤ mc)
    (hchk : pyStartsWith (normAbs (pyJoin root path)) root = true)
    (hfile : fsLookup fs (normAbs (pyJoin root path)) = some bytes) :
    ∃ c t, FileReaderTool.run root fs path mc = .ok ⟨c, t⟩ ∧
      c = (utf8DecodeIgnore bytes).take mc.toNat ∧
      ((c.length : Int) ≤ mc) ∧
      (t = true ↔ (c.length : Int) ≥ mc) ∧
      (((utf8DecodeIgnore bytes).length : Int) = mc → t = true) := by
  unfold FileReaderTool.run
  rw [if_neg hp]
  simp only [hchk, Bool.not_true, Bool.false_eq_true, if_false, hfile]
  refine ⟨_, _, rfl, ?_, ?_, ?_, ?_⟩
  · unfold pyRead
    rw [if_neg (by omega)]
  · unfold pyRead
    rw [if_neg (by omega), List.length_take]
    omega
  · simp
  · intro hlen
    apply decide_eq_true
    unfold pyRead
    rw [if_neg (by omega), List.length_take]
    omega

/-- Witness for the amended C7: reading `a.txt` (content `ab`) with
`max_chars = 2` returns both characters and reports `truncated = true`. -/
theorem fileReader_content_truncation_witness :
    ∃ c t, FileReaderTool.run "/r" fsAB "a.txt" 2 = .ok ⟨c, t⟩ ∧
      c = (utf8DecodeIgnore [97, 98]).take (2 : Int).toNat ∧
      ((c.length : Int) ≤ 2) ∧
      (t = true ↔ (c.length : Int) ≥ 2) ∧
      (((utf8DecodeIgnore [97, 98]).length : Int) = 2 → t = true) :=
  fileReader_content_truncation "/r" fsAB "a.txt" 2 [97, 98]
    (by decide) (by decide) (by decide) (by decide)

/-! ## C8 — HTTP service model name -/

/-- Claim C8: the HTTP service is supposed (both by the specification
and by the comment right above the assignment in `server/api.py`) to
read `MODEL_NAME` from the environment, but the code assigns the
default literal unconditionally; with `MODEL_NAME` set the wired model
name still is the default. -/
theorem apiModelName_ignores_environment :
    apiModelName [("MODEL_NAME", "llama3.1:8b")] = "qwen2.5-coder:14b" ∧
    specModelName [("MODEL_NAME", "llama3.1:8b")] = "llama3.1:8b" ∧
    ("qwen2.5-coder:14b" : String) ≠ "llama3.1:8b" := by
  exact ⟨rfl, rfl, by decide⟩

/-! ## C9 — tolerance of malformed tool configuration -/

/-- Claim C9, counterexample: a document that parses to a list (not a
mapping) does not yield an empty registry; `config.get` raises
`AttributeError` and construction aborts. -/
theorem loadTools_nonmapping_aborts :
    loadTools resolveNone (.seq [])
        = .error "AttributeError: document has no attribute get" ∧
    loadTools resolveNone (.seq []) ≠ .ok [] := by
  exact ⟨rfl, fun h => Except.noConfusion h⟩

/-- Claim C9 (amended): a parsed document that is a mapping without a
`tools` key is tolerated with an empty registry, but a parsed document
that is not a mapping aborts Agent construction (as do unresolvable
modules/classes and unparseable documents). -/
theorem loadTools_mapping_tolerance
    (resolve : String → String → Option ChatTool) (kvs : List (Yaml × Yaml))
    (h : yLookup kvs "tools" = none) :
    loadTools resolve (.map kvs) = .ok [] ∧
    ∀ config : Yaml, config.isMap = false →
      ∃ msg, loadTools resolve config = .error msg := by
  constructor
  · simp only [loadTools]
    rw [h]
    rfl
  · intro config hc
    cases config with
    | map kvs2 => exact absurd hc (by simp [Yaml.isMap])
    | null => exact ⟨_, rfl⟩
    | bool b => exact ⟨_, rfl⟩
    | num n => exact ⟨_, rfl⟩
    | str s => exact ⟨_, rfl⟩
    | seq xs => exact ⟨_, rfl⟩

/-- Witness for the amended C9: a mapping with only an unrelated key
yields the empty registry, and the empty-list document aborts. -/
theorem loadTools_mapping_tolerance_witness :
    loadTools resolveNone (.map [(.str "other", .null)]) = .ok [] ∧
    ∃ msg, loadTools resolveNone (.seq []) = .error msg := by
  have h := loadTools_mapping_tolerance resolveNone [(.str "other", .null)] rfl
  exact ⟨h.1, h.2 (.seq []) rfl⟩

/-! ## C10 — backend never mutates the shared history -/

/-- Claim C10: `OllamaBackend.generate` never mutates the history it
receives — whatever the transport does (succeed or raise), the caller's
history after the call is exactly the input history, and the system and
user messages are appended only to the freshly built message list, which
is the optional system message, then the history, then the new user
message. -/
theorem ollamaGenerate_preserves_history
    (chatFn : List Message → Except String String) (prompt : String)
    (history : List Message) (systemPrompt : Option String) :
    (OllamaBackend.generate chatFn prompt history systemPrompt).2 = history ∧
    OllamaBackend.generate chatFn prompt history systemPrompt
      = (chatFn (ollamaMessages prompt history systemPrompt), history) ∧
    ollamaMessages prompt history systemPrompt
      = (match systemPrompt with
         | some sp => [⟨"system", sp⟩]
         | none => []) ++ history ++ [⟨"user", prompt⟩] := by
  refine ⟨rfl, rfl, ?_⟩
  cases systemPrompt <;> simp [ollamaMessages]

/-! ## C1 — tool failures are not converted into error payloads -/

/-- Claim C1, counterexample: with an empty registry and a reply that is
a well-formed envelope naming the unregistered tool `write`, `chat` does
not return the claimed payload `\x7b"error": "Unknown tool: write"\x7d`
with history unchanged — the raised `ValueError` is swallowed and the
turn falls through to the plain path, returning the raw envelope text
and appending two history entries. -/
theorem chat_unknown_tool_counterexample :
    Agent.chat backendUnknown ⟨[], []⟩ "hi" true
      = .ok (envUnknown,
          ⟨[], [⟨"user", "hi"⟩, ⟨"assistant", envUnknown⟩]⟩) ∧
    envUnknown ≠ "\x7b\"error\": \"Unknown tool: write\"\x7d" := by
  exact ⟨rfl, by decide⟩

/-- Claim C1 (amended): when the reply is a tool-invocation envelope and
the named tool is missing from the registry, or the tool's execution or
argument handling raises, the failure is caught inside `chat` (never
propagated) and the turn is treated as a plain reply: `chat` appends the
user message and the stripped model reply to history and returns the
stripped reply — no JSON error payload is produced and history does
change (it grows by those two entries). -/
theorem chat_tool_failure_falls_through (backend : Backend) (st : AgentState)
    (message resp : String) (fields tf : List (String × Json)) (nm : String)
    (hb : backend message st.history (some (buildSystemPrompt st.tools)) = .ok resp)
    (hs : pyStartsWith (pyStrip resp) "\x7b" = true)
    (hj : jsonLoads (pyStrip resp) = some (.obj fields))
    (ht : jLookup fields "tool" = some (.obj tf))
    (htr : jTruthy (.obj tf) = true)
    (hn : jLookup tf "name" = some (.str nm))
    (hfail :
      lookupTool st.tools nm = none ∨
      (∃ tool args, lookupTool st.tools nm = some tool ∧
        (jLookup tf "args").getD (.obj []) = .obj args ∧
        ∃ e, tool.run args = .error e) ∨
      (∃ tool, lookupTool st.tools nm = some tool ∧
        ∀ args, (jLookup tf "args").getD (.obj []) ≠ .obj args)) :
    Agent.chat backend st message true
      = .ok (pyStrip resp,
          { st with history := st.history ++
              [⟨"user", message⟩, ⟨"assistant", pyStrip resp⟩] }) := by
  have hnone : tryToolCall st.tools (pyStrip resp) = none := by
    unfold tryToolCall
    rw [hj]
    simp only [ht, htr, if_true, hn]
    rcases hfail with hmiss | ⟨tool, args, hfound, hargs, e, herr⟩ | ⟨tool, hfound, hnoobj⟩
    · simp only [hmiss]
    · simp only [hfound, hargs, herr]
    · cases hv : (jLookup tf "args").getD (.obj []) with
      | obj a => exact absurd hv (hnoobj a)
      | null => simp only [hfound, hv]
      | bool b => simp only [hfound, hv]
      | num n => simp only [hfound, hv]
      | str s => simp only [hfound, hv]
      | arr xs => simp only [hfound, hv]
  have hb2 : backend message st.history
      (if (true : Bool) then some (buildSystemPrompt st.tools) else none)
      = .ok resp := hb
  unfold Agent.chat
  rw [hb2]
  simp only [hs, hnone, Bool.true_and, if_true]

/-- Witness for the amended C1: the unknown-tool scenario of the
counterexample discharges every hypothesis — the envelope names `write`,
the registry is empty, and the turn falls through to the plain path. -/
theorem chat_tool_failure_falls_through_witness :
    Agent.chat backendUnknown ⟨[], []⟩ "hello" true
      = .ok (envUnknown,
          ⟨[], [⟨"user", "hello"⟩, ⟨"assistant", envUnknown⟩]⟩) := by
  exact chat_tool_failure_falls_through backendUnknown ⟨[], []⟩ "hello" envUnknown
    [("tool", .obj [("name", .str "write"), ("args", .obj [])])]
    [("name", .str "write"), ("args", .obj [])] "write"
    rfl rfl rfl rfl rfl rfl (Or.inl rfl)

/-! ## C2 — envelope extraction has no substring fallback -/

/-- Claim C2, counterexample: a reply whose first-brace-to-last-brace
substring is a perfectly well-formed envelope naming the registered tool
`t` is nevertheless treated as a plain answer, because the code only
attempts extraction when the stripped reply itself starts with a brace
and only ever parses the whole reply — there is no substring fallback.
The registered tool is not invoked: the turn returns the prose reply,
not the serialized tool result. -/
theorem chat_prose_envelope_counterexample :
    Agent.chat backendProse ⟨dummyRegistry, []⟩ "go" true
      = .ok (proseReply,
          ⟨dummyRegistry, [⟨"user", "go"⟩, ⟨"assistant", proseReply⟩]⟩) ∧
    proseReply = "Sure! " ++ envDummy ∧
    jsonLoads envDummy
      = some (.obj [("tool", .obj [("name", .str "t"), ("args", .obj [])])]) ∧
    lookupTool dummyRegistry "t" = some dummyTool ∧
    proseReply ≠ jsonDumps (.obj [("ran", .bool true)]) := by
  exact ⟨rfl, rfl, rfl, rfl, by decide⟩

/-- Claim C2 (amended): extraction of a tool-invocation envelope is
attempted only when the stripped reply begins with an opening brace, and
then only by parsing the entire stripped reply; any reply not beginning
with a brace — in particular an envelope surrounded by prose — is
treated as an ordinary conversational answer. -/
theorem chat_requires_leading_brace (backend : Backend) (st : AgentState)
    (message resp : String)
    (hb : backend message st.history (some (buildSystemPrompt st.tools)) = .ok resp)
    (hs : pyStartsWith (pyStrip resp) "\x7b" = false) :
    Agent.chat backend st message true
      = .ok (pyStrip resp,
          { st with history := st.history ++
              [⟨"user", message⟩, ⟨"assistant", pyStrip resp⟩] }) := by
  have hb2 : backend message st.history
      (if (true : Bool) then some (buildSystemPrompt st.tools) else none)
      = .ok resp := hb
  unfold Agent.chat
  rw [hb2]
  simp only [hs, Bool.true_and, Bool.false_eq_true, if_false]

/-- Witness for the amended C2: a plain `hello` reply takes the ordinary
path. -/
theorem chat_requires_leading_brace_witness :
    Agent.chat backendHello ⟨[], []⟩ "hi" true
      = .ok ("hello", ⟨[], [⟨"user", "hi"⟩, ⟨"assistant", "hello"⟩]⟩) := by
  exact chat_requires_leading_brace backendHello ⟨[], []⟩ "hi" "hello" rfl rfl

/-! ## C3 — history growth shape -/

/-- Claim C3, counterexample: a successful tool turn appends three
entries (user message, raw envelope, serialized result), an odd number,
so `every successful turn appends an even number of entries` fails. -/
theorem chat_tool_turn_appends_three :
    Agent.chat backendDummy ⟨dummyRegistry, []⟩ "go" true
      = .ok ("\x7b\"ran\": true\x7d",
          ⟨dummyRegistry,
           [⟨"user", "go"⟩, ⟨"assistant", envDummy⟩,
            ⟨"assistant", "\x7b\"ran\": true\x7d"⟩]⟩) ∧
    ¬ Even ([(⟨"user", "go"⟩ : Message), ⟨"assistant", envDummy⟩,
        ⟨"assistant", "\x7b\"ran\": true\x7d"⟩] : List Message).length := by
  exact ⟨rfl, by decide⟩

/-- Claim C3 (amended): history only grows through `chat`: every
successful turn leaves the registry untouched, extends the history with
the prior entries unmodified (the old history is a prefix of the new),
and appends the user message first followed by one assistant entry
(plain turns and suppressed tool failures) or two assistant entries
(successful tool turns) — two or three entries in total, not always an
even number. -/
theorem chat_history_append_shape (backend : Backend) (st : AgentState)
    (message : String) (useTools : Bool) (r : String) (st2 : AgentState)
    (h : Agent.chat backend st message useTools = .ok (r, st2)) :
    st2.tools = st.tools ∧
    st.history.length ≤ st2.history.length ∧
    st.history <+: st2.history ∧
    ∃ rest : List Message,
      st2.history = st.history ++ (⟨"user", message⟩ :: rest) ∧
      rest ≠ [] ∧
      (∀ m ∈ rest, m.role = "assistant") ∧
      (rest.length = 1 ∨ rest.length = 2) := by
  unfold Agent.chat at h
  cases hb : backend message st.history
      (if useTools then some (buildSystemPrompt st.tools) else none) with
  | error e => rw [hb] at h; exact Except.noConfusion h
  | ok resp =>
    rw [hb] at h
    dsimp only at h
    by_cases hc : (useTools && pyStartsWith (pyStrip resp) "\x7b") = true
    · rw [if_pos hc] at h
      cases htc : tryToolCall st.tools (pyStrip resp) with
      | some rs =>
        rw [htc] at h
        injection h with h3
        rw [Prod.mk.injEq] at h3
        obtain ⟨hr, hst⟩ := h3
        subst hst
        refine ⟨rfl, by simp, ⟨_, rfl⟩,
          ⟨[⟨"assistant", pyStrip resp⟩, ⟨"assistant", rs⟩], rfl, by simp, ?_, by simp⟩⟩
        intro m hm
        simp at hm
        rcases hm with hm | hm <;> rw [hm]
      | none =>
        rw [htc] at h
        injection h with h3
        rw [Prod.mk.injEq] at h3
        obtain ⟨hr, hst⟩ := h3
        subst hst
        refine ⟨rfl, by simp, ⟨_, rfl⟩,
          ⟨[⟨"assistant", pyStrip resp⟩], rfl, by simp, ?_, by simp⟩⟩
        intro m hm
        simp at hm
        rw [hm]
    · rw [if_neg hc] at h
      injection h with h3
      rw [Prod.mk.injEq] at h3
      obtain ⟨hr, hst⟩ := h3
      subst hst
      refine ⟨rfl, by simp, ⟨_, rfl⟩,
        ⟨[⟨"assistant", pyStrip resp⟩], rfl, by simp, ?_, by simp⟩⟩
      intro m hm
      simp at hm
      rw [hm]

/-- Witness for the amended C3: a plain turn from the empty history
appends exactly the user entry and one assistant entry. -/
theorem chat_history_append_shape_witness :
    (⟨[], []⟩ : AgentState).history <+:
      (⟨[], [⟨"user", "hi"⟩, ⟨"assistant", "hello"⟩]⟩ : AgentState).history ∧
    ∃ rest : List Message,
      (⟨[], [⟨"user", "hi"⟩, ⟨"assistant", "hello"⟩]⟩ : AgentState).history
        = (⟨[], []⟩ : AgentState).history ++ (⟨"user", "hi"⟩ :: rest) ∧
      rest ≠ [] ∧
      (∀ m ∈ rest, m.role = "assistant") ∧
      (rest.length = 1 ∨ rest.length = 2) := by
  have h := chat_history_append_shape backendHello ⟨[], []⟩ "hi" false "hello"
    ⟨[], [⟨"user", "hi"⟩, ⟨"assistant", "hello"⟩]⟩ rfl
  exact ⟨h.2.2.1, h.2.2.2⟩

/-! ## Regex-to-substring lemmas (for C5) -/

/-- Compiling a metacharacter-free pattern produces exactly the literal
atom sequence (with the accumulated prefix). -/
theorem reCompileGo_no_meta (cs : List Char) :
    ∀ acc : List (RBase × RMod), (∀ c ∈ cs, isReMeta c = false) →
      reCompileGo cs acc = some (acc.reverse ++ litAtoms cs) := by
  induction cs with
  | nil => intro acc h; simp [reCompileGo, litAtoms]
  | cons c rest ih =>
    intro acc h
    have hc : isReMeta c = false := h c (by simp)
    have hrest : ∀ x ∈ rest, isReMeta x = false := fun x hx => h x (by simp [hx])
    unfold reCompileGo
    rw [if_neg (show ¬((c == '.') = true) from fun hb => by
      simp [isReMeta, hb] at hc)]
    rw [if_neg (show ¬((c == '*' || c == '+' || c == '?') = true) from fun hb => by
      simp only [Bool.or_eq_true] at hb
      rcases hb with (hb | hb) | hb <;> simp [isReMeta, hb] at hc)]
    rw [if_neg (show ¬(isReMeta c = true) from by simp [hc])]
    rw [ih _ hrest]
    simp [litAtoms]

/-- Compiling a metacharacter-free query yields the literal atoms. -/
theorem reCompile_no_meta (q : String)
    (h : ∀ c ∈ q.data, isReMeta c = false) :
    reCompile q = some (litAtoms q.data) := by
  unfold reCompile
  rw [reCompileGo_no_meta q.data [] h]
  simp

/-- With adequate fuel, a literal atom sequence matches a prefix of `s`
exactly when the lowered pattern is a prefix of the lowered input. -/
theorem matchSeqF_lit (q : List Char) :
    ∀ (s : List Char) (fuel : Nat), q.length + s.length < fuel →
      matchSeqF fuel (litAtoms q) s
        = (q.map Char.toLower).isPrefixOf (s.map Char.toLower) := by
  induction q with
  | nil =>
    intro s fuel hf
    cases fuel with
    | zero => omega
    | succ f => simp [matchSeqF, litAtoms]
  | cons c q ih =>
    intro s fuel hf
    cases fuel with
    | zero => omega
    | succ f =>
      cases s with
      | nil => simp [matchSeqF, litAtoms, List.isPrefixOf]
      | cons x s2 =>
        simp only [litAtoms, List.map_cons, matchSeqF, List.isPrefixOf]
        rw [show List.map (fun c => (RBase.chr c, RMod.one)) q = litAtoms q from rfl]
        rw [ih s2 f (by simp at hf ⊢; omega)]
        rfl

/-- The literal matcher anchored at each position coincides with
case-insensitive substring containment. -/
theorem reSearch_lit (q : List Char) :
    ∀ s : List Char, reSearch (litAtoms q) s = containsCI q s := by
  intro s
  induction s with
  | nil =>
    simp only [reSearch, containsCI, containsSub, matchSeq]
    rw [matchSeqF_lit q [] _ (by simp [litAtoms])]
    cases q <;> simp [List.isPrefixOf]
  | cons x s2 ih =>
    simp only [reSearch, containsCI, containsSub, List.map_cons]
    rw [matchSeq, matchSeqF_lit q (x :: s2) _ (by simp [litAtoms])]
    rw [ih]
    rfl

/-! ## Walk-order equivalence lemmas (for C6) -/

/-- Scanning a concatenation of file lists: scan the first part, and
continue with the second only when the cap was not reached. -/
theorem linearScan_append (pred : String → Bool) (maxResults : Int)
    (xs ys : List (String × String × List String)) :
    ∀ acc : List SMatch,
      linearScan pred maxResults (xs ++ ys) acc
        = (match linearScan pred maxResults xs acc with
           | (acc2, true) => (acc2, true)
           | (acc2, false) => linearScan pred maxResults ys acc2) := by
  induction xs with
  | nil => intro acc; simp [linearScan]
  | cons x rest ih =>
    obtain ⟨fname, rel, lines⟩ := x
    intro acc
    by_cases hext : allowedExt fname = true
    · simp only [List.cons_append, linearScan, hext, if_true]
      cases hscan : scanLines pred maxResults rel lines 1 acc with
      | mk acc2 stop =>
        cases stop with
        | true => rfl
        | false => exact ih acc2
    · simp only [List.cons_append, linearScan, hext, Bool.false_eq_true, if_false]
      exact ih acc

/-- Scanning the files of one directory equals the flat scan of the same
files paired with their root-relative paths. -/
theorem scanFiles_eq_linearScan (pred : String → Bool) (maxResults : Int)
    (pre : String) :
    ∀ (files : List (String × List String)) (acc : List SMatch),
      scanFiles pred maxResults pre files acc
        = linearScan pred maxResults
            (files.map (fun p => (p.1, relOf pre p.1, p.2))) acc := by
  intro files
  induction files with
  | nil => intro acc; rfl
  | cons x rest ih =>
    obtain ⟨fname, lines⟩ := x
    intro acc
    by_cases hext : allowedExt fname = true
    · simp only [scanFiles, linearScan, List.map_cons, hext, if_true]
      cases hscan : scanLines pred maxResults (relOf pre fname) lines 1 acc with
      | mk acc2 stop =>
        cases stop with
        | true => rfl
        | false => exact ih acc2
    · simp only [scanFiles, linearScan, List.map_cons, hext, Bool.false_eq_true,
        if_false]
      exact ih acc

mutual

/-- The pruning-free walk of a directory tree produces exactly the flat
scan, in walk order, of every file of every directory below it. -/
theorem walkTree_eq_linearScan (pred : String → Bool) (maxResults : Int) :
    ∀ (t : FTree) (pre : String) (acc : List SMatch),
      walkTree pred maxResults t pre acc
        = linearScan pred maxResults (allFiles t pre) acc
  | .node dirs files, pre, acc => by
    rw [walkTree, allFiles, linearScan_append, ← scanFiles_eq_linearScan]
    cases h : scanFiles pred maxResults pre files acc with
    | mk acc2 stop =>
      cases stop with
      | true => rfl
      | false => exact walkDirs_eq_linearScan pred maxResults dirs pre acc2

/-- Companion of `walkTree_eq_linearScan` for subdirectory lists. -/
theorem walkDirs_eq_linearScan (pred : String → Bool) (maxResults : Int) :
    ∀ (d : FDirList) (pre : String) (acc : List SMatch),
      walkDirs pred maxResults d pre acc
        = linearScan pred maxResults (allFilesDirs d pre) acc
  | .nil, pre, acc => by rw [walkDirs, allFilesDirs]; rfl
  | .cons d child rest, pre, acc => by
    rw [walkDirs, allFilesDirs, linearScan_append,
      ← walkTree_eq_linearScan pred maxResults child (relOf pre d) acc]
    cases h : walkTree pred maxResults child (relOf pre d) acc with
    | mk acc2 stop =>
      cases stop with
      | true => rfl
      | false => exact walkDirs_eq_linearScan pred maxResults rest pre acc2

end

/-! ## C5 — search treats the query as a regex, not a literal -/

/-- Claim C5, counterexample: there is no `regex` argument at all and no
escaping — the query is always compiled as a regular expression, so the
query `a.c` matches the line `abc` although `abc` does not contain the
literal text `a.c`; the claimed literal-substring semantics fails. -/
theorem fileSearch_metachar_counterexample :
    FileSearchTool.run treeABC "a.c" 20 = .ok ([⟨"a.txt", 1, "abc"⟩], false) ∧
    containsCI "a.c".data "abc".data = false := by
  exact ⟨rfl, rfl⟩

/-- Claim C5 (amended): the tool accepts no `regex` flag and performs no
escaping: the query is always compiled as a case-insensitive regular
expression, so metacharacters keep their special meaning; a query
containing no regex metacharacter is — and only such a query is
guaranteed to be — matched exactly as a case-insensitive literal
substring. -/
theorem fileSearch_literal_iff_no_meta (tree : FTree) (query : String)
    (maxResults : Int) (hq : ∀ c ∈ query.data, isReMeta c = false) :
    FileSearchTool.run tree query maxResults
      = literalSearchRun tree query maxResults := by
  unfold FileSearchTool.run literalSearchRun
  by_cases hempty : query = ""
  · rw [if_pos hempty, if_pos hempty]
  · rw [if_neg hempty, if_neg hempty, reCompile_no_meta query hq]
    dsimp only
    have hpred : (fun (line : String) => reSearch (litAtoms query.data) line.data)
        = (fun (line : String) => containsCI query.data line.data) :=
      funext (fun line => reSearch_lit query.data line.data)
    rw [hpred]

/-- Witness for the amended C5: the metacharacter-free query `foo`
searches the `node_modules` tree identically under regex and literal
matching. -/
theorem fileSearch_literal_iff_no_meta_witness :
    FileSearchTool.run treeNodeModules "foo" 20
      = literalSearchRun treeNodeModules "foo" 20 := by
  exact fileSearch_literal_iff_no_meta treeNodeModules "foo" 20 (by decide)

/-! ## C6 — the walk prunes no directories -/

/-- Claim C6, counterexample: a matching line inside
`node_modules/a.js` is reported — the walk does not prune
`node_modules` (nor any other directory), contradicting the claim that
no match is ever reported from under the ignored directory names. -/
theorem fileSearch_node_modules_counterexample :
    FileSearchTool.run treeNodeModules "foo" 20
      = .ok ([⟨"node_modules/a.js", 1, "foo"⟩], false) ∧
    pyStartsWith "node_modules/a.js" "node_modules/" = true := by
  exact ⟨rfl, rfl⟩

/-- Claim C6 (amended): the walk prunes nothing: for every query that
compiles, the search result is exactly the flat scan, in walk order, of
every file of every directory under the root — including directories
named `.git`, `__pycache__`, `.venv`, `node_modules` or `.mypy_cache` —
with only the extension allow-list filtering files. -/
theorem fileSearch_no_pruning (tree : FTree) (query : String)
    (maxResults : Int) (p : List (RBase × RMod)) (hq : query ≠ "")
    (hc : reCompile query = some p) :
    FileSearchTool.run tree query maxResults
      = .ok (linearScan (fun line => reSearch p line.data) maxResults
          (allFiles tree "") []) := by
  unfold FileSearchTool.run
  rw [if_neg hq, hc]
  dsimp only
  rw [walkTree_eq_linearScan]

/-- Witness for the amended C6: the search of the `node_modules` tree
for `foo` equals the flat scan of all its files. -/
theorem fileSearch_no_pruning_witness :
    FileSearchTool.run treeNodeModules "foo" 20
      = .ok (linearScan (fun line => reSearch (litAtoms "foo".data) line.data) 20
          (allFiles treeNodeModules "") []) := by
  exact fileSearch_no_pruning treeNodeModules "foo" 20 (litAtoms "foo".data)
    (by decide) (by decide)

end LocalAgent
